import Mathlib

/-!
Verification of the OXRS-IO-Generic-ESP32-LIB orchestration layer
(`src/OXRS_32.cpp`).  The development shallowly embeds the JSON data
handled by ArduinoJson documents, the `_mergeJson` schema merger, the
`_mqttCommand` dispatcher, the schema setters, the adoption-info
builders, the publish operations and the `begin` initialisation
sequence, and proves the spec's testable properties about them.
-/

namespace OXRS32

/-- JSON values as stored by ArduinoJson documents: objects are ordered
member lists (duplicate keys are representable, exactly as in an
ArduinoJson document deserialised from text with repeated keys).
Numbers are modelled as integers; the claims under study only involve
integral numbers. -/
inductive Json where
  | null : Json
  | bool : Bool → Json
  | num : Int → Json
  | str : String → Json
  | arr : List Json → Json
  | obj : List (String × Json) → Json

/-- First member with the given key (ArduinoJson `getMember` scans the
member list in order and returns the first hit). -/
def objLookup : List (String × Json) → String → Option Json
  | [], _ => none
  | (k, v) :: rest, key => if k = key then some v else objLookup rest key

/-- Overwrite the first member with the given key, or append a new
member at the end (ArduinoJson `getOrAddMember` followed by an
assignment). -/
def objSet : List (String × Json) → String → Json → List (String × Json)
  | [], key, v => [(key, v)]
  | (k, w) :: rest, key, v =>
    if k = key then (key, v) :: rest else (k, w) :: objSet rest key v

/-- Member lookup on a JSON value: `none` unless the value is an object
holding the key. -/
def Json.lookupKey : Json → String → Option Json
  | .obj ms, key => objLookup ms key
  | _, _ => none

/-- Reading `dst[key]`: null when the key is absent or `dst` is not an
object. -/
def Json.getKey (j : Json) (key : String) : Json := (j.lookupKey key).getD .null

/-- Writing `dst[key] = v`: a null document becomes a fresh one-member
object, an object gets the member set, and an assignment into any other
value fails silently (ArduinoJson `getOrAddMember` yields null there,
so the assignment has no effect). -/
def Json.setKey : Json → String → Json → Json
  | .obj ms, key, v => .obj (objSet ms key v)
  | .null, key, _v => .obj [(key, _v)]
  | j, _, _ => j

/-- ArduinoJson boolean conversion (`as<bool>()` and the implicit bool
conversion used in `if (dst[key])`): false for null, `false` and zero;
true for every other value, including strings, arrays and objects. -/
def Json.truthy : Json → Bool
  | .null => false
  | .bool b => b
  | .num n => n != 0
  | _ => true

def Json.isObj : Json → Bool
  | .obj _ => true
  | _ => false

/-- ArduinoJson `isNull` on a document: true exactly for the null value
(a freshly constructed or cleared document). -/
def Json.isNull : Json → Bool
  | .null => true
  | _ => false

/-- ArduinoJson `containsKey`: the value is an object and has a member
with this key (a null-valued member still counts). -/
def Json.containsKey (j : Json) (key : String) : Bool := (j.lookupKey key).isSome

mutual
/-- `_mergeJson` from `OXRS_32.cpp` (lines 41-61): for an object source
walk its members in order; when the existing destination member is
truthy the merge recurses into it, otherwise the source member is
assigned; a non-object source is assigned wholesale (`dst.set(src)`). -/
def mergeJson : Json → Json → Json
  | dst, .obj kvs => mergePairs dst kvs
  | _dst, src => src

/-- The member loop of `_mergeJson`. -/
def mergePairs : Json → List (String × Json) → Json
  | dst, [] => dst
  | dst, (key, v) :: rest =>
    mergePairs
      (if (dst.getKey key).truthy
       then dst.setKey key (mergeJson (dst.getKey key) v)
       else dst.setKey key v) rest
end

/-- One member step of `_mergeJson`: how the value already present at a
key (null when absent) combines with the fragment's value for that key. -/
def mergeAt (e v : Json) : Json := if e.truthy then mergeJson e v else v

/-- Keys pairwise distinct in a member list. -/
def nodupKeys : List (String × Json) → Bool
  | [] => true
  | (k, _) :: rest => rest.all (fun p => p.1 != k) && nodupKeys rest

mutual
/-- A well-formed JSON value: every object nested anywhere inside it has
pairwise-distinct keys (the shape every JSON text with unique member
names deserialises to). -/
def Json.wf : Json → Bool
  | .obj ms => nodupKeys ms && wfMembers ms
  | .arr xs => wfElems xs
  | _ => true

def wfMembers : List (String × Json) → Bool
  | [] => true
  | p :: rest => p.2.wf && wfMembers rest

def wfElems : List Json → Bool
  | [] => true
  | x :: rest => x.wf && wfElems rest
end

/-- The merge algorithm exactly as the spec words it (§4.2): a
non-object fragment is assigned by value, overwriting any prior value;
for an object fragment the members are processed in order, and a member
whose value is itself an object is deep-merged into the value the
target already has at that key, while otherwise the fragment's value is
assigned as-is.  Recursing into an existing value is meaningful only
when that value is itself an object (one cannot deep-merge into a
scalar), so the recursion rule carries that guard; outside it the
algorithm prescribes nothing.  Assignment is ArduinoJson assignment
(`setKey`), shared with the code's merge. -/
inductive SpecMerge : Json → Json → Json → Prop where
  | assign (dst src : Json) :
      src.isObj = false → SpecMerge dst src src
  | done (dst : Json) : SpecMerge dst (.obj []) dst
  | recurseKey (dst : Json) (k : String) (v : Json) (rest : List (String × Json))
      (e m out : Json) :
      v.isObj = true → dst.lookupKey k = some e → e.isObj = true →
      SpecMerge e v m → SpecMerge (dst.setKey k m) (.obj rest) out →
      SpecMerge dst (.obj ((k, v) :: rest)) out
  | newKey (dst : Json) (k : String) (v : Json) (rest : List (String × Json)) (out : Json) :
      v.isObj = true → dst.lookupKey k = none →
      SpecMerge (dst.setKey k v) (.obj rest) out →
      SpecMerge dst (.obj ((k, v) :: rest)) out
  | scalarKey (dst : Json) (k : String) (v : Json) (rest : List (String × Json)) (out : Json) :
      v.isObj = false →
      SpecMerge (dst.setKey k v) (.obj rest) out →
      SpecMerge dst (.obj ((k, v) :: rest)) out

/-- The observable outcome of one `_mqttCommand` dispatch.  A restart
outcome precludes forwarding because `ESP.restart()` does not return;
with no restart requested the payload is forwarded iff a firmware
command handler was registered, and otherwise nothing happens. -/
inductive CommandOutcome where
  | restart : CommandOutcome
  | forwarded : Json → CommandOutcome
  | noop : CommandOutcome

/-- `_mqttCommand` from `OXRS_32.cpp` (lines 219-229): restart when the
payload contains the key "restart" with a value that converts to
boolean true (`containsKey` plus `as<bool>()`), otherwise pass the
payload on to the firmware callback when one is registered
(`if (_onCommand) { _onCommand(json); }`). -/
def _mqttCommand (hasCommandHandler : Bool) (json : Json) : CommandOutcome :=
  if json.containsKey "restart" && (json.getKey "restart").truthy then .restart
  else if hasCommandHandler then .forwarded json else .noop

/-- `OXRS_32::publishStatus` (lines 347-354): exit early with failure
when the network link is down, otherwise return what the MQTT
transport's publish reports.  The transport is an opaque parameter. -/
def publishStatus (networkConnected : Bool) (mqttPublishStatus : Json → Bool)
    (json : Json) : Bool :=
  if !networkConnected then false else mqttPublishStatus json

/-- `OXRS_32::publishTelemetry` (lines 356-363), same shape as
`publishStatus`. -/
def publishTelemetry (networkConnected : Bool) (mqttPublishTelemetry : Json → Bool)
    (json : Json) : Bool :=
  if !networkConnected then false else mqttPublishTelemetry json

/-- The two accumulated firmware schema documents (the globals
`_fwConfigSchema` and `_fwCommandSchema`).  A `DynamicJsonDocument`
starts out null and `clear()` returns it to null. -/
structure SchemaState where
  fwConfigSchema : Json
  fwCommandSchema : Json

/-- `OXRS_32::setConfigSchema` (lines 325-329): clear the accumulated
document, then merge the fragment into the now-null document. -/
def setConfigSchema (st : SchemaState) (json : Json) : SchemaState :=
  { st with fwConfigSchema := mergeJson .null json }

/-- `OXRS_32::setCommandSchema` (lines 331-335), symmetric to
`setConfigSchema`. -/
def setCommandSchema (st : SchemaState) (json : Json) : SchemaState :=
  { st with fwCommandSchema := mergeJson .null json }

/-- Compile-time firmware identity, runtime counters and network
identity that the adoption builders read from firmware macros, the ESP
runtime, LittleFS and WiFi; opaque inputs to this model. -/
structure DeviceEnv where
  fwName : String
  fwShortName : String
  fwMaker : String
  fwVersion : String
  githubUrl : Option String
  heapUsedBytes : Nat
  heapFreeBytes : Nat
  heapMaxAllocBytes : Nat
  flashChipSizeBytes : Nat
  sketchSpaceUsedBytes : Nat
  sketchSpaceTotalBytes : Nat
  fileSystemUsedBytes : Nat
  fileSystemTotalBytes : Nat
  ipDisplay : String
  mac0 : Nat
  mac1 : Nat
  mac2 : Nat
  mac3 : Nat
  mac4 : Nat
  mac5 : Nat
  jsonSchemaVersion : String

def hexDigitLower (n : Nat) : Char :=
  if n < 10 then Char.ofNat (48 + n) else Char.ofNat (87 + n)

def hexDigitUpper (n : Nat) : Char :=
  if n < 10 then Char.ofNat (48 + n) else Char.ofNat (55 + n)

/-- `sprintf("%02x", b)` for a byte value. -/
def byteHexLower (b : Nat) : String :=
  String.mk [hexDigitLower (b / 16 % 16), hexDigitLower (b % 16)]

/-- `sprintf("%02X", b)` for a byte value. -/
def byteHexUpper (b : Nat) : String :=
  String.mk [hexDigitUpper (b / 16 % 16), hexDigitUpper (b % 16)]

/-- The colon-separated uppercase MAC display form
(`%02X:%02X:%02X:%02X:%02X:%02X`). -/
def macDisplay (m0 m1 m2 m3 m4 m5 : Nat) : String :=
  byteHexUpper m0 ++ ":" ++ byteHexUpper m1 ++ ":" ++ byteHexUpper m2 ++ ":" ++
    byteHexUpper m3 ++ ":" ++ byteHexUpper m4 ++ ":" ++ byteHexUpper m5

/-- `_getFirmwareJson` (lines 64-76): nested "firmware" object with the
firmware identity, plus the GitHub URL when compiled in. -/
def _getFirmwareJson (env : DeviceEnv) (json : Json) : Json :=
  json.setKey "firmware" (.obj
    ([("name", .str env.fwName), ("shortName", .str env.fwShortName),
      ("maker", .str env.fwMaker), ("version", .str env.fwVersion)] ++
      (match env.githubUrl with
       | some u => [("githubUrl", Json.str u)]
       | none => [])))

/-- `_getSystemJson` (lines 78-92): nested "system" object with the
runtime resource counters. -/
def _getSystemJson (env : DeviceEnv) (json : Json) : Json :=
  json.setKey "system" (.obj
    [("heapUsedBytes", .num env.heapUsedBytes),
     ("heapFreeBytes", .num env.heapFreeBytes),
     ("heapMaxAllocBytes", .num env.heapMaxAllocBytes),
     ("flashChipSizeBytes", .num env.flashChipSizeBytes),
     ("sketchSpaceUsedBytes", .num env.sketchSpaceUsedBytes),
     ("sketchSpaceTotalBytes", .num env.sketchSpaceTotalBytes),
     ("fileSystemUsedBytes", .num env.fileSystemUsedBytes),
     ("fileSystemTotalBytes", .num env.fileSystemTotalBytes)])

/-- `_getNetworkJson` (lines 94-107): nested "network" object with the
mode, IP and formatted MAC address. -/
def _getNetworkJson (env : DeviceEnv) (json : Json) : Json :=
  json.setKey "network" (.obj
    [("mode", .str "wifi"), ("ip", .str env.ipDisplay),
     ("mac", .str (macDisplay env.mac0 env.mac1 env.mac2 env.mac3 env.mac4 env.mac5))])

/-- The schema envelope metadata both schema sections start with
(lines 113-116 and 131-134): `$schema` version tag, `title`, and
`type: object`. -/
def schemaEnvelope (env : DeviceEnv) : Json :=
  (((Json.obj []).setKey "$schema" (.str env.jsonSchemaVersion)).setKey
    "title" (.str env.fwShortName)).setKey "type" (.str "object")

/-- The "properties" object of the config schema section: the firmware
config schema is merged in only when the accumulated document is not
null (lines 118-124). -/
def configProps (fwConfigSchema : Json) : Json :=
  if fwConfigSchema.isNull then Json.obj [] else mergeJson (.obj []) fwConfigSchema

/-- `_getConfigSchemaJson` (lines 109-125): envelope metadata plus the
"properties" object. -/
def _getConfigSchemaJson (env : DeviceEnv) (fwConfigSchema : Json) (json : Json) : Json :=
  json.setKey "configSchema" ((schemaEnvelope env).setKey "properties" (configProps fwConfigSchema))

/-- The built-in restart command schema entry written by
`_getCommandSchemaJson` (lines 144-147). -/
def restartCommandEntry : Json := .obj [("title", .str "Restart"), ("type", .str "boolean")]

/-- The "properties" object of the command schema section: any firmware
command schema merged in first, then the built-in "restart" entry
written in (`createNestedObject` replaces any member of that name with
a fresh object, lines 136-147). -/
def commandProps (fwCommandSchema : Json) : Json :=
  (if fwCommandSchema.isNull then Json.obj [] else mergeJson (.obj []) fwCommandSchema).setKey
    "restart" restartCommandEntry

/-- `_getCommandSchemaJson` (lines 127-148): envelope metadata plus the
"properties" object with the built-in restart entry. -/
def _getCommandSchemaJson (env : DeviceEnv) (fwCommandSchema : Json) (json : Json) : Json :=
  json.setKey "commandSchema" ((schemaEnvelope env).setKey "properties" (commandProps fwCommandSchema))

/-- `_apiAdopt` (lines 151-159): the five adoption sections built in
order into one document. -/
def _apiAdopt (env : DeviceEnv) (fwConfigSchema fwCommandSchema : Json) (json : Json) : Json :=
  _getCommandSchemaJson env fwCommandSchema
    (_getConfigSchemaJson env fwConfigSchema
      (_getNetworkJson env (_getSystemJson env (_getFirmwareJson env json))))

/-- The MQTT session settings claim C9 observes.  The broker field
stands for the settings `_initialiseMqtt` does not touch. -/
structure MqttSession where
  broker : String
  clientId : String

/-- The identity-derived default client id,
`sprintf("%02x%02x%02x", mac[3], mac[4], mac[5])` — fixed-width
lowercase hex of the last 3 bytes of the hardware address. -/
def defaultClientId (mac3 mac4 mac5 : Nat) : String :=
  byteHexLower mac3 ++ byteHexLower mac4 ++ byteHexLower mac5

/-- `OXRS_32::_initialiseMqtt` (lines 395-413) restricted to the session
settings: seed the client id with the identity-derived default.  The
callback registrations it also performs do not touch the session
settings. -/
def _initialiseMqtt (mac3 mac4 mac5 : Nat) (st : MqttSession) : MqttSession :=
  { st with clientId := defaultClientId mac3 mac4 mac5 }

/-- Modelled from the spec: `OXRS_32::_initialiseRestApi` starts the
Management Surface, which "may subsequently override session settings
from persisted configuration"; the file-loading code itself lives in
the external OXRS_API collaborator, so it is modelled here as an
optional persisted client id that overrides the session field when
present and leaves the session untouched when no configuration was
persisted. -/
def _initialiseRestApi (persistedClientId : Option String) (st : MqttSession) : MqttSession :=
  match persistedClientId with
  | some c => { st with clientId := c }
  | none => st

/-- `OXRS_32::begin` (lines 282-306) restricted to the session settings:
`_initialiseMqtt` seeds the identity-derived defaults strictly before
`_initialiseRestApi` applies persisted overrides, and both run before
`loop` can drive a first connection attempt. -/
def beginSession (mac3 mac4 mac5 : Nat) (persistedClientId : Option String)
    (st : MqttSession) : MqttSession :=
  _initialiseRestApi persistedClientId (_initialiseMqtt mac3 mac4 mac5 st)

/-! Basic lemmas about member lookup and assignment. -/

theorem objLookup_objSet_self (ms : List (String × Json)) (k : String) (v : Json) :
    objLookup (objSet ms k v) k = some v := by
  induction ms with
  | nil => simp [objSet, objLookup]
  | cons p rest ih =>
    obtain ⟨k0, w⟩ := p
    by_cases h : k0 = k <;> simp [objSet, objLookup, h, ih]

theorem objLookup_objSet_other (ms : List (String × Json)) (k k' : String) (v : Json)
    (h : k ≠ k') : objLookup (objSet ms k v) k' = objLookup ms k' := by
  induction ms with
  | nil => simp [objSet, objLookup, h]
  | cons p rest ih =>
    obtain ⟨k0, w⟩ := p
    by_cases h0 : k0 = k
    · subst h0
      simp [objSet, objLookup, h]
    · by_cases h1 : k0 = k' <;> simp [objSet, objLookup, h0, h1, ih, Ne.symm h]

theorem objSet_lookup_self (ms : List (String × Json)) (k : String) (w : Json)
    (h : objLookup ms k = some w) : objSet ms k w = ms := by
  induction ms with
  | nil => simp [objLookup] at h
  | cons p rest ih =>
    obtain ⟨k0, v0⟩ := p
    by_cases h0 : k0 = k
    · subst h0
      simp [objLookup] at h
      simp [objSet, h]
    · simp [objLookup, h0] at h
      simp [objSet, h0, ih h]

theorem objLookup_of_nodup_mem (ms : List (String × Json)) (hnd : nodupKeys ms = true)
    (k : String) (v : Json) (h : (k, v) ∈ ms) : objLookup ms k = some v := by
  induction ms with
  | nil => cases h
  | cons p rest ih =>
    obtain ⟨k0, v0⟩ := p
    simp only [nodupKeys, Bool.and_eq_true, List.all_eq_true, bne_iff_ne] at hnd
    rcases List.mem_cons.mp h with heq | hmem
    · injection heq with hk hv
      subst hk; subst hv
      simp [objLookup]
    · have hne : k ≠ k0 := hnd.1 (k, v) hmem
      simp only [objLookup, if_neg (Ne.symm hne)]
      exact ih hnd.2 hmem

theorem wfMembers_mem (l : List (String × Json)) (h : wfMembers l = true) :
    ∀ p ∈ l, p.2.wf = true := by
  induction l with
  | nil => simp
  | cons p rest ih =>
    simp only [wfMembers, Bool.and_eq_true] at h
    intro q hq
    rcases List.mem_cons.mp hq with heq | hmem
    · subst heq; exact h.1
    · exact ih h.2 q hmem

/-! Lemmas about `setKey`, `getKey` and the member loop of the merge. -/

theorem lookupKey_setKey_self (d : Json) (k : String) (v : Json)
    (h : d.isObj = true ∨ d = .null) : (d.setKey k v).lookupKey k = some v := by
  rcases h with h | h
  · cases d <;> simp_all [Json.isObj, Json.setKey, Json.lookupKey, objLookup_objSet_self]
  · subst h; simp [Json.setKey, Json.lookupKey, objLookup]

theorem lookupKey_setKey_other (d : Json) (k k' : String) (v : Json) (h : k ≠ k') :
    (d.setKey k v).lookupKey k' = d.lookupKey k' := by
  cases d <;> simp [Json.setKey, Json.lookupKey, objLookup, objLookup_objSet_other, h]

theorem setKey_isObj (d : Json) (k : String) (v : Json)
    (h : d.isObj = true ∨ d = .null) : (d.setKey k v).isObj = true := by
  rcases h with h | h
  · cases d <;> simp_all [Json.isObj, Json.setKey]
  · subst h; simp [Json.setKey, Json.isObj]

theorem setKey_self_of_lookup (d : Json) (k : String) (w : Json)
    (h : d.lookupKey k = some w) : d.setKey k w = d := by
  cases d <;> simp_all [Json.lookupKey, Json.setKey, objSet_lookup_self]

theorem isNull_false_of_ne (d : Json) (h : d ≠ .null) : d.isNull = false := by
  cases d <;> simp_all [Json.isNull]

theorem truthy_of_isObj (j : Json) (h : j.isObj = true) : j.truthy = true := by
  cases j <;> simp_all [Json.isObj, Json.truthy]

theorem getKey_eq_of_lookup (j : Json) (k : String) (w : Json)
    (h : j.lookupKey k = some w) : j.getKey k = w := by
  simp [Json.getKey, h]

theorem mergePairs_nil (d : Json) : mergePairs d [] = d := rfl

theorem mergePairs_cons (d : Json) (k : String) (v : Json) (rest : List (String × Json)) :
    mergePairs d ((k, v) :: rest) = mergePairs (d.setKey k (mergeAt (d.getKey k) v)) rest := by
  by_cases h : (d.getKey k).truthy <;> simp [mergePairs, mergeAt, h]

theorem setKey_scalar (d : Json) (hobj : d.isObj = false) (hnull : d.isNull = false)
    (k : String) (v : Json) : d.setKey k v = d := by
  cases d <;> simp_all [Json.setKey, Json.isObj, Json.isNull]

theorem mergePairs_scalar (d : Json) (hobj : d.isObj = false) (hnull : d.isNull = false)
    (l : List (String × Json)) : mergePairs d l = d := by
  induction l with
  | nil => rfl
  | cons p rest ih =>
    obtain ⟨k, v⟩ := p
    rw [mergePairs_cons, setKey_scalar d hobj hnull]
    exact ih

theorem mergeJson_obj (d : Json) (kvs : List (String × Json)) :
    mergeJson d (.obj kvs) = mergePairs d kvs := rfl

theorem mergeJson_nonObj (d src : Json) (h : src.isObj = false) : mergeJson d src = src := by
  cases src <;> simp_all [Json.isObj] <;> rfl

theorem mergePairs_isObj (l : List (String × Json)) :
    ∀ d : Json, d.isObj = true → (mergePairs d l).isObj = true := by
  induction l with
  | nil => intro d hd; exact hd
  | cons p rest ih =>
    obtain ⟨k, v⟩ := p
    intro d hd
    rw [mergePairs_cons]
    exact ih _ (setKey_isObj d k _ (Or.inl hd))

theorem mergePairs_lookupKey_not_mem (l : List (String × Json)) (k : String)
    (h : ∀ p ∈ l, p.1 ≠ k) :
    ∀ d : Json, (mergePairs d l).lookupKey k = d.lookupKey k := by
  induction l with
  | nil => intro d; rfl
  | cons p rest ih =>
    obtain ⟨k0, v⟩ := p
    intro d
    rw [mergePairs_cons]
    rw [ih (fun q hq => h q (List.mem_cons_of_mem _ hq)) _]
    exact lookupKey_setKey_other d k0 k _ (h (k0, v) (List.mem_cons_self _ _))

theorem mergePairs_idem (l : List (String × Json))
    (hstep : ∀ p ∈ l, ∀ e, mergeAt (mergeAt e p.2) p.2 = mergeAt e p.2)
    (hnd : nodupKeys l = true) :
    ∀ d : Json, mergePairs (mergePairs d l) l = mergePairs d l := by
  induction l with
  | nil => intro d; rfl
  | cons p rest ih =>
    obtain ⟨k, v⟩ := p
    simp only [nodupKeys, Bool.and_eq_true, List.all_eq_true, bne_iff_ne] at hnd
    intro d
    by_cases hd : d.isObj = true ∨ d = .null
    · have h1 : mergePairs d ((k, v) :: rest)
          = mergePairs (d.setKey k (mergeAt (d.getKey k) v)) rest := mergePairs_cons ..
      have hGlk : (mergePairs (d.setKey k (mergeAt (d.getKey k) v)) rest).lookupKey k
          = some (mergeAt (d.getKey k) v) := by
        rw [mergePairs_lookupKey_not_mem rest k hnd.1]
        exact lookupKey_setKey_self d k _ hd
      have hGget : (mergePairs (d.setKey k (mergeAt (d.getKey k) v)) rest).getKey k
          = mergeAt (d.getKey k) v := getKey_eq_of_lookup _ _ _ hGlk
      rw [h1, mergePairs_cons, hGget,
        hstep (k, v) (List.mem_cons_self _ _) (d.getKey k),
        setKey_self_of_lookup _ _ _ hGlk]
      exact ih (fun q hq e => hstep q (List.mem_cons_of_mem _ hq) e) hnd.2 _
    · push_neg at hd
      have hobj : d.isObj = false := by
        cases hio : d.isObj
        · rfl
        · exact absurd hio hd.1
      have hnull : d.isNull = false := isNull_false_of_ne d hd.2
      rw [mergePairs_scalar d hobj hnull, mergePairs_scalar d hobj hnull]

theorem mergePairs_fixed (ms : List (String × Json)) :
    ∀ l : List (String × Json),
      (∀ p ∈ l, objLookup ms p.1 = some p.2 ∧ mergeAt p.2 p.2 = p.2) →
      mergePairs (.obj ms) l = .obj ms := by
  intro l
  induction l with
  | nil => intro _; rfl
  | cons p rest ih =>
    intro h
    obtain ⟨k, v⟩ := p
    obtain ⟨hlk, hat⟩ := h (k, v) (List.mem_cons_self _ _)
    have hg : (Json.obj ms).getKey k = v := by simp [Json.getKey, Json.lookupKey, hlk]
    have hs : (Json.obj ms).setKey k v = .obj ms := by
      simp [Json.setKey, objSet_lookup_self ms k v hlk]
    rw [mergePairs_cons, hg, hat, hs]
    exact ih (fun q hq => h q (List.mem_cons_of_mem _ hq))

/-! Idempotence of the merge on well-formed fragments. -/

theorem sizeOf_val_lt_obj (kvs : List (String × Json)) (p : String × Json) (hp : p ∈ kvs) :
    sizeOf p.2 < sizeOf (Json.obj kvs) := by
  have h1 := List.sizeOf_lt_of_mem hp
  have h2 : sizeOf p.2 < sizeOf p := by
    obtain ⟨a, b⟩ := p
    simp
  simp only [Json.obj.sizeOf_spec]
  omega

theorem merge_core_nonObj (v : Json) (h : v.isObj = false) :
    (mergeJson v v = v) ∧ (∀ e, mergeAt (mergeAt e v) v = mergeAt e v) ∧
    (∀ d, mergeJson (mergeJson d v) v = mergeJson d v) := by
  have h1 : ∀ d, mergeJson d v = v := fun d => mergeJson_nonObj d v h
  refine ⟨h1 v, ?_, fun d => by rw [h1, h1]⟩
  intro e
  by_cases he : e.truthy = true <;> simp [mergeAt, he, h1]

theorem merge_core :
    ∀ (n : Nat) (v : Json), sizeOf v ≤ n → v.wf = true →
      (mergeJson v v = v) ∧ (∀ e, mergeAt (mergeAt e v) v = mergeAt e v) ∧
      (∀ d, mergeJson (mergeJson d v) v = mergeJson d v) := by
  intro n
  induction n with
  | zero =>
    intro v hv _
    exact absurd hv (by cases v <;> simp)
  | succ n ih =>
    intro v hv hwf
    cases v with
    | null => exact merge_core_nonObj _ rfl
    | bool b => exact merge_core_nonObj _ rfl
    | num m => exact merge_core_nonObj _ rfl
    | str s => exact merge_core_nonObj _ rfl
    | arr xs => exact merge_core_nonObj _ rfl
    | obj kvs =>
      simp only [Json.wf, Bool.and_eq_true] at hwf
      obtain ⟨hnd, hm⟩ := hwf
      have hmem : ∀ p ∈ kvs, sizeOf p.2 ≤ n := by
        intro p hp
        have := sizeOf_val_lt_obj kvs p hp
        omega
      have ihp : ∀ p ∈ kvs,
          (mergeJson p.2 p.2 = p.2) ∧ (∀ e, mergeAt (mergeAt e p.2) p.2 = mergeAt e p.2) ∧
          (∀ d, mergeJson (mergeJson d p.2) p.2 = mergeJson d p.2) :=
        fun p hp => ih p.2 (hmem p hp) (wfMembers_mem kvs hm p hp)
      have hstep : ∀ p ∈ kvs, ∀ e, mergeAt (mergeAt e p.2) p.2 = mergeAt e p.2 :=
        fun p hp => (ihp p hp).2.1
      have hidem := mergePairs_idem kvs hstep hnd
      have hselfAt : ∀ p ∈ kvs, mergeAt p.2 p.2 = p.2 := by
        intro p hp
        have h2 := (ihp p hp).2.1 Json.null
        simpa [mergeAt, Json.truthy] using h2
      have part1 : mergeJson (.obj kvs) (.obj kvs) = .obj kvs := by
        rw [mergeJson_obj]
        refine mergePairs_fixed kvs kvs (fun p hp => ?_)
        refine ⟨?_, hselfAt p hp⟩
        obtain ⟨a, b⟩ := p
        exact objLookup_of_nodup_mem kvs hnd a b hp
      refine ⟨part1, ?_, ?_⟩
      · intro e
        by_cases he : e.truthy = true
        · have h1 : mergeAt e (.obj kvs) = mergeJson e (.obj kvs) := by simp [mergeAt, he]
          rw [h1]
          by_cases heo : e.isObj = true
          · have hm1 : (mergeJson e (.obj kvs)).isObj = true := by
              rw [mergeJson_obj]
              exact mergePairs_isObj kvs e heo
            have h2 : mergeAt (mergeJson e (.obj kvs)) (.obj kvs)
                = mergeJson (mergeJson e (.obj kvs)) (.obj kvs) := by
              simp [mergeAt, truthy_of_isObj _ hm1]
            rw [h2, mergeJson_obj, mergeJson_obj]
            exact hidem e
          · have hobj : e.isObj = false := by simpa using heo
            have hnull : e.isNull = false := by
              cases e <;> simp_all [Json.truthy, Json.isNull]
            have h3 : mergeJson e (.obj kvs) = e := by
              rw [mergeJson_obj]
              exact mergePairs_scalar e hobj hnull kvs
            rw [h3]
            simp [mergeAt, he, h3]
        · have h1 : mergeAt e (.obj kvs) = .obj kvs := by simp [mergeAt, he]
          rw [h1]
          simp [mergeAt, Json.truthy, part1]
      · intro d
        rw [mergeJson_obj, mergeJson_obj]
        exact hidem d

/-- `_mergeJson` is idempotent on any destination for a fragment whose
objects all have pairwise-distinct keys. -/
theorem mergeJson_idem_of_wf (d F : Json) (h : F.wf = true) :
    mergeJson (mergeJson d F) F = mergeJson d F :=
  (merge_core (sizeOf F) F le_rfl h).2.2 d

/-! The claims. -/

/-- Claim C3, counterexample: merge idempotence fails as stated for the
object fragment F = `{"a": {"x": 1, "x": 0}}` (an ArduinoJson document
deserialised from text with a repeated member name keeps both members).
Merging F into the empty document copies the nested object verbatim,
giving `{"a": {"x": 1, "x": 0}}`; merging F again recurses into that
object and each inner assignment rewrites only the first "x" member, so
the second pass ends at `{"a": {"x": 0, "x": 0}}`, an observable
change. -/
theorem claim_merge_idempotence_counterexample :
    (Json.obj [("a", .obj [("x", .num 1), ("x", .num 0)])]).isObj = true ∧
    mergeJson (mergeJson .null (.obj [("a", .obj [("x", .num 1), ("x", .num 0)])]))
        (.obj [("a", .obj [("x", .num 1), ("x", .num 0)])])
      ≠ mergeJson .null (.obj [("a", .obj [("x", .num 1), ("x", .num 0)])]) := by
  refine ⟨rfl, ?_⟩
  simp [mergeJson, mergePairs, Json.getKey, Json.setKey, Json.lookupKey, objLookup,
    objSet, Json.truthy]

/-- Claim C3, amended: for every object fragment F whose objects all
have pairwise-distinct keys (every JSON object written without repeated
member names), merging F into an empty document and then merging F
again yields exactly the document the first merge produced:
merge(merge(null, F), F) = merge(null, F). -/
theorem claim_merge_idempotence (F : Json) (hwf : F.wf = true) (_hobj : F.isObj = true) :
    mergeJson (mergeJson .null F) F = mergeJson .null F :=
  mergeJson_idem_of_wf .null F hwf

theorem claim_merge_idempotence_witness :
    (Json.obj [("a", .obj [("x", .num 1)]), ("b", .bool false)]).wf = true ∧
    (Json.obj [("a", .obj [("x", .num 1)]), ("b", .bool false)]).isObj = true ∧
    mergeJson (mergeJson .null (.obj [("a", .obj [("x", .num 1)]), ("b", .bool false)]))
        (.obj [("a", .obj [("x", .num 1)]), ("b", .bool false)])
      = mergeJson .null (.obj [("a", .obj [("x", .num 1)]), ("b", .bool false)]) :=
  ⟨rfl, rfl, claim_merge_idempotence _ rfl rfl⟩

/-- Claim C4: merging the fragment `{"a": 1}` and then `{"a": 2}` into
the same initially empty document yields `{"a": 2}` (newest scalar
wins), and merging `{"a": {"x": 1}}` and then `{"a": {"y": 2}}` yields
`{"a": {"x": 1, "y": 2}}` (object-level union of nested keys). -/
theorem claim_merge_right_bias :
    mergeJson (mergeJson .null (.obj [("a", .num 1)])) (.obj [("a", .num 2)])
      = .obj [("a", .num 2)] ∧
    mergeJson (mergeJson .null (.obj [("a", .obj [("x", .num 1)])]))
        (.obj [("a", .obj [("y", .num 2)])])
      = .obj [("a", .obj [("x", .num 1), ("y", .num 2)])] :=
  ⟨rfl, rfl⟩

/-- Claim C5: `_mergeJson` follows the algorithm the spec states —
whenever the spec's algorithm (the `SpecMerge` relation: recurse into
the target's existing object member for an object-valued fragment key
the target already has, assign the fragment's value as-is otherwise,
and assign non-object fragments by value) prescribes a result for a
target and fragment, the code's merge computes exactly that result. -/
theorem claim_merge_follows_spec_algorithm (dst src out : Json) (h : SpecMerge dst src out) :
    mergeJson dst src = out := by
  induction h with
  | assign dst src h => exact mergeJson_nonObj dst src h
  | done dst => rfl
  | recurseKey dst k v rest e m out hv hlk he hrec hrest ih1 ih2 =>
    rw [mergeJson_obj, mergePairs_cons, getKey_eq_of_lookup dst k e hlk]
    have hm : mergeAt e v = m := by simp [mergeAt, truthy_of_isObj e he, ih1]
    rw [hm, ← mergeJson_obj]
    exact ih2
  | newKey dst k v rest out hv hlk hrest ih =>
    rw [mergeJson_obj, mergePairs_cons]
    have hg : dst.getKey k = .null := by simp [Json.getKey, hlk]
    have hn : mergeAt Json.null v = v := by simp [mergeAt, Json.truthy]
    rw [hg, hn, ← mergeJson_obj]
    exact ih
  | scalarKey dst k v rest out hv hrest ih =>
    rw [mergeJson_obj, mergePairs_cons]
    have ha : mergeAt (dst.getKey k) v = v := by
      by_cases ht : (dst.getKey k).truthy = true
      · simp [mergeAt, ht, mergeJson_nonObj _ v hv]
      · simp [mergeAt, ht]
    rw [ha, ← mergeJson_obj]
    exact ih

theorem claim_merge_follows_spec_algorithm_witness :
    mergeJson (.obj [("a", .obj [("x", .num 1)])]) (.obj [("a", .obj [("y", .num 2)])])
      = .obj [("a", .obj [("x", .num 1), ("y", .num 2)])] :=
  claim_merge_follows_spec_algorithm _ _ _
    (SpecMerge.recurseKey _ "a" _ [] (.obj [("x", .num 1)])
      (.obj [("x", .num 1), ("y", .num 2)]) _ rfl rfl rfl
      (SpecMerge.scalarKey _ "y" (.num 2) [] _ rfl (SpecMerge.done _))
      (SpecMerge.done _))

/-- Claim C1: every command payload containing the key "restart" with a
value that converts to boolean true triggers the restart path when
dispatched, whether or not a firmware command handler is registered —
and since the reset does not return, this necessarily happens before
any forwarding could. -/
theorem claim_restart_triggers_on_true (json : Json) (hasHandler : Bool)
    (hkey : json.containsKey "restart" = true)
    (htrue : (json.getKey "restart").truthy = true) :
    _mqttCommand hasHandler json = .restart := by
  simp [_mqttCommand, hkey, htrue]

theorem claim_restart_triggers_on_true_witness :
    (Json.obj [("restart", .bool true)]).containsKey "restart" = true ∧
    ((Json.obj [("restart", .bool true)]).getKey "restart").truthy = true ∧
    _mqttCommand true (.obj [("restart", .bool true)]) = .restart :=
  ⟨rfl, rfl, claim_restart_triggers_on_true _ true rfl rfl⟩

/-- Claim C2: when the key "restart" is absent from a command payload
or its value converts to boolean false, dispatch never takes the
restart path, and with a firmware command handler registered it
forwards the entire original payload unmodified to that handler. -/
theorem claim_dispatch_forwards_full_payload (json : Json)
    (h : json.containsKey "restart" = false ∨ (json.getKey "restart").truthy = false) :
    _mqttCommand true json = .forwarded json ∧
      ∀ reg : Bool, _mqttCommand reg json ≠ .restart := by
  have hcond : (json.containsKey "restart" && (json.getKey "restart").truthy) = false := by
    rcases h with h | h <;> simp [h]
  refine ⟨by simp [_mqttCommand, hcond], ?_⟩
  intro reg
  cases reg <;> simp [_mqttCommand, hcond]

theorem claim_dispatch_forwards_full_payload_witness :
    ((Json.obj [("restart", .bool false), ("dim", .num 50)]).getKey "restart").truthy
        = false ∧
    _mqttCommand true (.obj [("restart", .bool false), ("dim", .num 50)])
      = .forwarded (.obj [("restart", .bool false), ("dim", .num 50)]) :=
  ⟨rfl, (claim_dispatch_forwards_full_payload
    (.obj [("restart", .bool false), ("dim", .num 50)]) (Or.inr rfl)).1⟩

/-- Claim C10: built-in restart interception is independent of firmware
handler registration — with no handler registered, a payload whose
"restart" member converts to true still restarts, and a payload that
does not trigger the restart makes the dispatch a silent no-op (the
callback invocation is guarded on the callback being non-null). -/
theorem claim_restart_independent_of_handler (json : Json) :
    (json.containsKey "restart" = true → (json.getKey "restart").truthy = true →
      _mqttCommand false json = .restart) ∧
    ((json.containsKey "restart" && (json.getKey "restart").truthy) = false →
      _mqttCommand false json = .noop) := by
  refine ⟨fun h1 h2 => by simp [_mqttCommand, h1, h2], fun h => by simp [_mqttCommand, h]⟩

theorem claim_restart_independent_of_handler_witness :
    _mqttCommand false (.obj [("restart", .num 1)]) = .restart ∧
    _mqttCommand false (.obj [("dim", .num 50)]) = .noop :=
  ⟨(claim_restart_independent_of_handler _).1 rfl rfl,
    (claim_restart_independent_of_handler _).2 rfl⟩

/-- Claim C8: with the network link down, `publishStatus` and
`publishTelemetry` fail immediately and their result does not depend on
the transport (it is never consulted); with the link up they return
exactly what the transport's publish reports. -/
theorem claim_link_down_short_circuit (t t' : Json → Bool) (json : Json) :
    publishStatus false t json = false ∧
    publishStatus false t json = publishStatus false t' json ∧
    publishStatus true t json = t json ∧
    publishTelemetry false t json = false ∧
    publishTelemetry false t json = publishTelemetry false t' json ∧
    publishTelemetry true t json = t json :=
  ⟨rfl, rfl, rfl, rfl, rfl, rfl⟩

/-- Claim C6: `setConfigSchema(F1)` then `setConfigSchema(F2)` leaves
the accumulated document equal to merge(null, F2) — the second call
replaces (clears then merges) rather than accumulating — and likewise
for `setCommandSchema`; at F1 = `{"a": 1}`, F2 = `{"b": 2}` the result
differs from merge(F1, F2). -/
theorem claim_schema_replace_semantics (st : SchemaState) (f1 f2 : Json) :
    (setConfigSchema (setConfigSchema st f1) f2).fwConfigSchema = mergeJson .null f2 ∧
    (setCommandSchema (setCommandSchema st f1) f2).fwCommandSchema = mergeJson .null f2 ∧
    (setConfigSchema (setConfigSchema ⟨.null, .null⟩ (.obj [("a", .num 1)]))
        (.obj [("b", .num 2)])).fwConfigSchema
      ≠ mergeJson (.obj [("a", .num 1)]) (.obj [("b", .num 2)]) := by
  refine ⟨rfl, rfl, ?_⟩
  simp [setConfigSchema, mergeJson, mergePairs, Json.getKey, Json.setKey, Json.lookupKey,
    objLookup, objSet, Json.truthy]

/-- Claim C9: in `begin`, the identity-derived session defaults are set
strictly before the Management Surface starts and can load persisted
configuration, so a persisted client id always wins over the default
derived from the last 3 bytes of the hardware address, and with nothing
persisted the identity-derived default is the effective client id at
the first connection attempt. -/
theorem claim_config_precedence_ordering (mac3 mac4 mac5 : Nat) (st : MqttSession) :
    (∀ c, (beginSession mac3 mac4 mac5 (some c) st).clientId = c) ∧
    (beginSession mac3 mac4 mac5 none st).clientId = defaultClientId mac3 mac4 mac5 :=
  ⟨fun _ => rfl, rfl⟩

/-- Claim C7: for every firmware command schema (null when none was
registered, otherwise an object) and every state of the adoption
document being built (an object so far, or a fresh null document), the
command schema section of the adoption document contains a "restart"
property entry with title "Restart" and type "boolean". -/
theorem claim_builtin_restart_schema_always_present (env : DeviceEnv)
    (fwConfig fwCommand parent : Json)
    (hfw : fwCommand = .null ∨ fwCommand.isObj = true)
    (hp : parent.isObj = true ∨ parent = .null) :
    (((_apiAdopt env fwConfig fwCommand parent).getKey "commandSchema").getKey
        "properties").lookupKey "restart"
      = some (.obj [("title", .str "Restart"), ("type", .str "boolean")]) := by
  have h1 : (_getFirmwareJson env parent).isObj = true := setKey_isObj parent _ _ hp
  have h2 : (_getSystemJson env (_getFirmwareJson env parent)).isObj = true :=
    setKey_isObj _ _ _ (Or.inl h1)
  have h3 : (_getNetworkJson env (_getSystemJson env
      (_getFirmwareJson env parent))).isObj = true :=
    setKey_isObj _ _ _ (Or.inl h2)
  have h4 : (_getConfigSchemaJson env fwConfig (_getNetworkJson env (_getSystemJson env
      (_getFirmwareJson env parent)))).isObj = true :=
    setKey_isObj _ _ _ (Or.inl h3)
  have hbase : (if fwCommand.isNull then Json.obj []
      else mergeJson (.obj []) fwCommand).isObj = true := by
    rcases hfw with h | h
    · subst h
      rfl
    · cases fwCommand with
      | obj kvs => exact mergePairs_isObj kvs (.obj []) rfl
      | null => simp [Json.isObj] at h
      | bool b => simp [Json.isObj] at h
      | num n => simp [Json.isObj] at h
      | str s => simp [Json.isObj] at h
      | arr xs => simp [Json.isObj] at h
  have hset : (_apiAdopt env fwConfig fwCommand parent).getKey "commandSchema"
      = (schemaEnvelope env).setKey "properties" (commandProps fwCommand) :=
    getKey_eq_of_lookup _ _ _ (lookupKey_setKey_self _ _ _ (Or.inl h4))
  rw [hset]
  have henv : (schemaEnvelope env).isObj = true := rfl
  rw [getKey_eq_of_lookup _ _ _
    (lookupKey_setKey_self (schemaEnvelope env) _ _ (Or.inl henv))]
  exact lookupKey_setKey_self _ "restart" restartCommandEntry (Or.inl hbase)

theorem claim_builtin_restart_schema_always_present_witness :
    (((_apiAdopt ⟨"n", "s", "m", "v", none, 0, 0, 0, 0, 0, 0, 0, 0, "ip",
          0, 0, 0, 0, 0, 0, "sv"⟩ .null .null .null).getKey "commandSchema").getKey
        "properties").lookupKey "restart"
      = some (.obj [("title", .str "Restart"), ("type", .str "boolean")]) :=
  claim_builtin_restart_schema_always_present _ _ _ _ (Or.inl rfl) (Or.inr rfl)

end OXRS32
